import Mathlib

/-!
Shallow embedding of the QR-attendance core of the brosted-4u backend:
the `AttendanceToken` lifecycle (`src/models/AttendanceToken.js`), the
attendance controller (`src/controllers/attendanceController.js`, first
revision in the file), and the absence sweep (`src/utils/checkAbsentUsers.js`).

Modelling conventions:
* Timestamps are natural numbers of milliseconds since the Unix epoch
  (JavaScript `Date.getTime()`), the document store is a Lean `List` of
  records, and Mongo `_id`s are naturals handed out by a `nextId` counter.
* `createdAt` ties in the retention sort are broken by `_id`; MongoDB leaves
  the order of ties unspecified, and `_id`s here increase in creation order,
  so this is a deterministic refinement of `.sort(createdAt DESC)`.
* `findOne` with a sort is modelled by a recursive argmax that prefers the
  earlier document among ties (again a deterministic refinement).
* The fixed UTC+3 Asia/Riyadh offset of `src/utils/dateUtils.js` is applied
  arithmetically; `getDateString`'s `YYYY-MM-DD` rendering is modelled by the
  Saudi-local day index (the rendering is a bijection on day indices).
-/

namespace Brosted

/-- One hour in milliseconds. -/
def hourMs : Nat := 3600000

/-- One day in milliseconds. -/
def dayMs : Nat := 86400000

/-- Asia/Riyadh is a fixed UTC+3 offset (`SAUDI_OFFSET_HOURS = 3`). -/
def saudiOffsetMs : Nat := 3 * hourMs

/-- `dateUtils.getStartOfToday`: current instant shifted to Saudi wall-clock
time, truncated to midnight, shifted back to UTC. -/
def getStartOfToday (now : Nat) : Nat :=
  ((now + saudiOffsetMs) / dayMs) * dayMs - saudiOffsetMs

/-- `dateUtils.getEndOfToday`: 23:59:59.999 of the Saudi-local day. -/
def getEndOfToday (now : Nat) : Nat :=
  getStartOfToday now + (dayMs - 1)

/-- The Saudi-local day index of a timestamp.  Models
`dateUtils.getDateString` up to the bijection between `YYYY-MM-DD` strings
and day indices. -/
def saudiDayIndex (ts : Nat) : Nat :=
  (ts + saudiOffsetMs) / dayMs

/-- Lowercase English weekday names indexed from Sunday, as produced by
`toLocaleDateString('en-US', \x7bweekday: 'long'\x7d).toLowerCase()`. -/
def weekdayNames : List String :=
  ["sunday", "monday", "tuesday", "wednesday", "thursday", "friday", "saturday"]

/-- `dateUtils.getDayName`: weekday of the Saudi-local day.  The epoch day
(1970-01-01) was a Thursday, index 4 from Sunday. -/
def getDayName (now : Nat) : String :=
  weekdayNames.getD ((saudiDayIndex now + 4) % 7) ""

/-- Token status enum of the `AttendanceToken` schema. -/
inductive TokenStatus where
  | active
  | expired
  | used
deriving DecidableEq, Repr

/-- The BSON value stored in a token's `sequenceNumber` field.  `num` is a
proper number, `nan` a double `NaN` (which still has BSON type `number`),
`nonNumeric` a value of some other BSON type, `missing` an absent field. -/
inductive SeqVal where
  | num (n : Int)
  | nan
  | nonNumeric
  | missing
deriving DecidableEq, Repr

/-- Does the field match the Mongo query
`sequenceNumber: \x7b $exists: true, $type: 'number' \x7d`? -/
def SeqVal.isNumberType : SeqVal → Bool
  | .num _ => true
  | .nan => true
  | .nonNumeric => false
  | .missing => false

/-- The numeric value of the field, if it is a non-NaN number. -/
def SeqVal.toNum : SeqVal → Option Int
  | .num n => some n
  | .nan => none
  | .nonNumeric => none
  | .missing => none

/-- BSON strict comparison used by `.sort(sequenceNumber DESC)` restricted to
number-typed values: `NaN` sorts below every number. -/
def SeqVal.gtB : SeqVal → SeqVal → Bool
  | .num a, .num b => a > b
  | .num _, _ => true
  | _, _ => false

/-- An `AttendanceToken` document (`src/models/AttendanceToken.js`). -/
structure Token where
  id : Nat
  token : String
  validFrom : Nat
  validTo : Nat
  status : TokenStatus
  sequenceNumber : SeqVal
  createdBy : Option Nat
  usageCount : Nat
  createdAt : Nat
deriving DecidableEq, Repr

/-- The token collection together with the `_id` counter. -/
structure TokenStore where
  tokens : List Token
  nextId : Nat
deriving DecidableEq, Repr

/-- Well-formedness of a token store: `_id`s are distinct and below the
counter, and token values are distinct (the schema declares
`token: unique`). -/
def WFStore (s : TokenStore) : Prop :=
  (s.tokens.map (·.id)).Nodup ∧
  (∀ t ∈ s.tokens, t.id < s.nextId) ∧
  (s.tokens.map (·.token)).Nodup

instance (s : TokenStore) : Decidable (WFStore s) := by
  unfold WFStore; infer_instance

/-- `findOne(\x7bsequenceNumber: ...\x7d).sort(\x7bsequenceNumber: -1\x7d)`:
the document whose `sequenceNumber` is BSON-greatest, the earlier document
winning ties. -/
def pickMaxBySeq : List Token → Option Token
  | [] => none
  | t :: ts =>
    match pickMaxBySeq ts with
    | none => some t
    | some b => some (if b.sequenceNumber.gtB t.sequenceNumber then b else t)

/-- `AttendanceToken.getNextSequence` (`src/models/AttendanceToken.js`
lines 53-65): query for number-typed sequence numbers, take the greatest,
return it plus one if it is a genuine number (`typeof 'number' && !isNaN`),
else default to 1. -/
def getNextSequence (tokens : List Token) : Int :=
  match pickMaxBySeq (tokens.filter (fun t => t.sequenceNumber.isNumberType)) with
  | some lastToken =>
    match lastToken.sequenceNumber with
    | .num n => n + 1
    | _ => 1
  | none => 1

/-- `attendanceTokenSchema.methods.isValid`: active and inside the
`[validFrom, validTo)` window. -/
def isValidTok (t : Token) (now : Nat) : Bool :=
  t.status == .active && t.validFrom ≤ now && now < t.validTo

/-- `attendanceTokenSchema.methods.markAsUsed`: increment `usageCount` and
save; nothing else is touched. -/
def markAsUsed (t : Token) : Token :=
  { t with usageCount := t.usageCount + 1 }

/-- Strict "more recently created" order: later `createdAt`, ties broken by
larger `_id` (creation order). -/
def moreRecent (a b : Token) : Bool :=
  b.createdAt < a.createdAt || (a.createdAt == b.createdAt && b.id < a.id)

/-- The non-strict companion of `moreRecent`, fed to the retention sort:
`recentLe a b` holds when `a` is at least as recent as `b`. -/
def recentLe (a b : Token) : Bool :=
  !moreRecent b a

/-- The retention prune shared by `generateQRCode` and `cleanupExpiredQRs`:
`find().sort(\x7bcreatedAt: -1\x7d).limit(10)` collects the ids to keep and
`deleteMany(\x7b_id: \x7b$nin: idsToKeep\x7d\x7d)` deletes every other
document. -/
def pruneTokens (tokens : List Token) : List Token :=
  let idsToKeep := ((tokens.mergeSort recentLe).take 10).map (·.id)
  tokens.filter (fun t => idsToKeep.contains t.id)

/-- `updateMany(\x7b_id: \x7b$ne: newId\x7d, status: 'active'\x7d,
\x7bstatus: 'expired'\x7d)`: expire every other active token. -/
def expireOthers (newId : Nat) (tokens : List Token) : List Token :=
  tokens.map (fun t =>
    if t.id ≠ newId ∧ t.status = .active then { t with status := .expired } else t)

/-- `generateQRCode` (`src/controllers/attendanceController.js` lines 10-77;
`QRAutoGenerator.generateQR` is the same sequence): allocate the next
sequence number, insert a fresh active token valid for `validitySeconds`,
expire all other active tokens, prune to the 10 most recent.  The fresh
random `tokenValue` is a parameter of the model. -/
def generateQRCode (store : TokenStore) (now : Nat) (validitySeconds : Nat)
    (tokenValue : String) (createdBy : Option Nat) : Token × TokenStore :=
  let seq := getNextSequence store.tokens
  let newTok : Token :=
    { id := store.nextId
      token := tokenValue
      validFrom := now
      validTo := now + validitySeconds * 1000
      status := .active
      sequenceNumber := .num seq
      createdBy := createdBy
      usageCount := 0
      createdAt := now }
  let afterExpire := expireOthers newTok.id (store.tokens ++ [newTok])
  (newTok, { tokens := pruneTokens afterExpire, nextId := store.nextId + 1 })

/-- `updateMany(\x7bstatus: 'active', validTo: \x7b$lt: now\x7d\x7d,
\x7bstatus: 'expired'\x7d)`: the marking step of `cleanupExpiredQRs`. -/
def markNaturallyExpired (now : Nat) (tokens : List Token) : List Token :=
  tokens.map (fun t =>
    if t.status = .active ∧ t.validTo < now then { t with status := .expired } else t)

/-- `cleanupExpiredQRs` (`src/controllers/attendanceController.js`
lines 815-853): mark naturally expired tokens, then the retention prune. -/
def cleanupExpiredQRs (store : TokenStore) (now : Nat) : TokenStore :=
  { tokens := pruneTokens (markNaturallyExpired now store.tokens)
    nextId := store.nextId }

/-- `findOne(\x7btoken\x7d)`: exact token-value lookup. -/
def findToken (tokens : List Token) (v : String) : Option Token :=
  tokens.find? (fun t => t.token == v)

/-- Outcome of the public `validateQRToken` endpoint. -/
inductive ValidateResult where
  | notFound
  | expired
  | valid (expiresIn : Nat)
deriving DecidableEq, Repr

/-- HTTP status the handler attaches to each `validateQRToken` outcome. -/
def valHttpStatus : ValidateResult → Nat
  | .notFound => 404
  | .expired => 400
  | .valid _ => 200

/-- Caller-facing message of each `validateQRToken` outcome. -/
def valMessage : ValidateResult → String
  | .notFound => "Invalid QR code"
  | .expired => "QR code has expired or is no longer active"
  | .valid _ => "ok"

/-- `validateQRToken` (`src/controllers/attendanceController.js`
lines 127-166): look up by exact value; 404 if absent, 400 if not
`isValid()`, otherwise the remaining whole seconds of the window.  The
handler performs no write, so the store is returned unchanged. -/
def validateQRToken (tokens : List Token) (v : String) (now : Nat) :
    ValidateResult × List Token :=
  match findToken tokens v with
  | none => (.notFound, tokens)
  | some qrToken =>
    if isValidTok qrToken now then
      (.valid ((qrToken.validTo - now) / 1000), tokens)
    else
      (.expired, tokens)

/-- Attendance log action enum. -/
inductive LogType where
  | checkin
  | checkout
deriving DecidableEq, Repr

/-- An `AttendanceLog` document as created by `recordAttendance` (the model
file itself is not in the repository snapshot; the fields are the ones the
controller writes and queries).  `ip` and `userAgent` metadata are external
request data and are not modelled. -/
structure AttendanceLog where
  userId : Nat
  type : LogType
  timestamp : Nat
  method : String
  tokenId : Option Nat
  qrSequence : SeqVal
deriving DecidableEq, Repr

/-- The persisted state `recordAttendance` reads and writes. -/
structure SysState where
  tokens : List Token
  logs : List AttendanceLog
deriving DecidableEq, Repr

/-- Outcome of `recordAttendance`. -/
inductive RecordResult where
  | missingFields
  | badType
  | invalidToken
  | expiredToken
  | alreadyCheckedIn
  | noOpenSession
  | alreadyCheckedOut
  | success (log : AttendanceLog)
deriving DecidableEq, Repr

/-- HTTP status attached to each `recordAttendance` outcome. -/
def recHttpStatus : RecordResult → Nat
  | .missingFields => 400
  | .badType => 400
  | .invalidToken => 404
  | .expiredToken => 400
  | .alreadyCheckedIn => 400
  | .noOpenSession => 400
  | .alreadyCheckedOut => 400
  | .success _ => 200

/-- Caller-facing message of each `recordAttendance` outcome. -/
def recMessage : RecordResult → String
  | .missingFields => "Token and type are required"
  | .badType => "Type must be either checkin or checkout"
  | .invalidToken => "Invalid QR code"
  | .expiredToken => "QR code has expired or is no longer active"
  | .alreadyCheckedIn => "You have already checked in today"
  | .noOpenSession => "You must check in before checking out"
  | .alreadyCheckedOut => "You have already checked out today"
  | .success _ => "ok"

/-- JavaScript falsiness of the destructured request-body strings: absent or
empty strings fail the `!token || !type` guard. -/
def isFalsy : Option String → Bool
  | none => true
  | some s => s == ""

/-- `find(\x7buserId, type: 'checkin'\x7d).sort(timestamp DESC).limit(1)`:
the log with the greatest timestamp, the earlier document winning ties. -/
def pickLatest : List AttendanceLog → Option AttendanceLog
  | [] => none
  | l :: ls =>
    match pickLatest ls with
    | none => some l
    | some b => some (if l.timestamp < b.timestamp then b else l)

/-- The user's most recent check-in log over all days. -/
def latestCheckin (logs : List AttendanceLog) (u : Nat) : Option AttendanceLog :=
  pickLatest (logs.filter (fun l => l.userId == u && l.type == .checkin))

/-- The user's logs whose timestamp falls in today's Saudi-local window
(`timestamp: \x7b$gte: todayStart, $lte: todayEnd\x7d`). -/
def todayLogs (logs : List AttendanceLog) (u : Nat) (now : Nat) : List AttendanceLog :=
  logs.filter (fun l =>
    l.userId == u && getStartOfToday now ≤ l.timestamp && l.timestamp ≤ getEndOfToday now)

/-- `hasCheckInToday` / `hasCheckOutToday`: does a log of the given action
exist in today's window? -/
def hasTypeTodayB (logs : List AttendanceLog) (u : Nat) (now : Nat) (ty : LogType) : Bool :=
  (todayLogs logs u now).any (fun l => l.type == ty)

/-- `hasCheckOutAfterCheckIn`: `findOne(\x7buserId, type: 'checkout',
timestamp: \x7b$gt: ts\x7d\x7d)` is non-empty. -/
def hasCheckoutAfterB (logs : List AttendanceLog) (u : Nat) (ts : Nat) : Bool :=
  logs.any (fun l => l.userId == u && l.type == .checkout && ts < l.timestamp)

/-- The `AttendanceLog` document `recordAttendance` creates on success. -/
def mkQRLog (u : Nat) (now : Nat) (action : LogType) (qrToken : Token) :
    AttendanceLog :=
  { userId := u
    type := action
    timestamp := now
    method := "qr"
    tokenId := some qrToken.id
    qrSequence := qrToken.sequenceNumber }

/-- Success path of `recordAttendance`: append the new log and run
`markAsUsed` on the presented token. -/
def recordSuccess (st : SysState) (u : Nat) (now : Nat) (action : LogType)
    (qrToken : Token) : RecordResult × SysState :=
  (.success (mkQRLog u now action qrToken),
    { tokens := st.tokens.map (fun t => if t.id == qrToken.id then markAsUsed t else t)
      logs := st.logs ++ [mkQRLog u now action qrToken] })

/-- `recordAttendance` (`src/controllers/attendanceController.js`
lines 169-369): input guards, token lookup and validity, same-day dedupe for
check-in, open-session and same-day rules for check-out, then log creation
plus `markAsUsed`.  The fire-and-forget late-arrival notification after a
successful check-in touches neither collection and is not modelled. -/
def recordAttendance (st : SysState) (u : Nat) (tokenInp typeInp : Option String)
    (now : Nat) : RecordResult × SysState :=
  if isFalsy tokenInp || isFalsy typeInp then (.missingFields, st)
  else
    let ty := typeInp.getD ""
    if !(ty == "checkin" || ty == "checkout") then (.badType, st)
    else
      match findToken st.tokens (tokenInp.getD "") with
      | none => (.invalidToken, st)
      | some qrToken =>
        if !isValidTok qrToken now then (.expiredToken, st)
        else
          let hasCheckInToday := hasTypeTodayB st.logs u now .checkin
          let hasCheckOutToday := hasTypeTodayB st.logs u now .checkout
          if ty == "checkin" then
            if hasCheckInToday then (.alreadyCheckedIn, st)
            else recordSuccess st u now .checkin qrToken
          else
            match latestCheckin st.logs u with
            | none => (.noOpenSession, st)
            | some lastCheckIn =>
              if hasCheckoutAfterB st.logs u lastCheckIn.timestamp &&
                  !hasCheckInToday then (.noOpenSession, st)
              else if hasCheckOutToday &&
                  (saudiDayIndex lastCheckIn.timestamp == saudiDayIndex now) then
                (.alreadyCheckedOut, st)
              else recordSuccess st u now .checkout qrToken

/-- The user fields the absence sweep reads (`User.find(\x7bisActive:
true\x7d).select(...)`). -/
structure AbsUser where
  id : Nat
  workDays : List String
  isActive : Bool
deriving DecidableEq, Repr

/-- Result of one `checkAbsentUsers()` run: the userIds for which an absence
notification was created, and whether the surrounding `catch` swallowed a
thrown error (aborting the remainder of the sweep). -/
structure SweepOutcome where
  notified : List Nat
  aborted : Bool
deriving DecidableEq, Repr

/-- The per-user loop of `checkAbsentUsers` (`src/utils/checkAbsentUsers.js`
lines 107-140 of the dateUtils revision).  For an absent user the code
builds the notification payload containing `date: today.toISOString()`, but
`today` is not defined anywhere in that revision's scope, so evaluating the
payload throws a `ReferenceError` before `createNotification` is invoked;
the outer `catch` then swallows the error and the sweep stops.  (In the
earlier revision, lines 9-68, the loop instead throws a `RangeError` at
`toLocaleDateString('en-US', \x7b weekday: 'lowercase' \x7d)` — an invalid
option value — before even reaching the absence test, with the same
zero-notification outcome.) -/
def sweepLoop (dayName : String) (checkedInIds : List Nat) :
    List AbsUser → List Nat → SweepOutcome
  | [], acc => { notified := acc.reverse, aborted := false }
  | u :: us, acc =>
    if u.workDays.isEmpty then sweepLoop dayName checkedInIds us acc
    else if !(u.workDays.contains dayName) then sweepLoop dayName checkedInIds us acc
    else if checkedInIds.contains u.id then sweepLoop dayName checkedInIds us acc
    else { notified := acc.reverse, aborted := true }

/-- `checkAbsentUsers` (`src/utils/checkAbsentUsers.js`, dateUtils revision,
lines 84-146): gather active users and today's check-ins, then run the loop
of `sweepLoop`. -/
def checkAbsentUsers (users : List AbsUser) (logs : List AttendanceLog)
    (now : Nat) : SweepOutcome :=
  let activeUsers := users.filter (·.isActive)
  let checkedInIds := (logs.filter (fun l =>
    l.type == .checkin && getStartOfToday now ≤ l.timestamp &&
      l.timestamp ≤ getEndOfToday now)).map (·.userId)
  sweepLoop (getDayName now) checkedInIds activeUsers []

/-! ## Helper lemmas -/

/-- `find?` returns the designated element when it is the unique element
satisfying the predicate. -/
theorem find_of_unique {α} {p : α → Bool} {l : List α} {a : α}
    (ha : a ∈ l) (hp : p a = true) (huniq : ∀ b ∈ l, p b = true → b = a) :
    l.find? p = some a := by
  induction l with
  | nil => cases ha
  | cons h t ih =>
    by_cases hph : p h = true
    · have heq : h = a := huniq h (List.mem_cons_self h t) hph
      subst heq
      simp [List.find?, hph]
    · have hne : h ≠ a := fun e => hph (e ▸ hp)
      have ha' : a ∈ t := by
        rcases List.mem_cons.mp ha with rfl | h'
        · exact absurd rfl hne
        · exact h'
      have huniq' : ∀ b ∈ t, p b = true → b = a := fun b hb hpb =>
        huniq b (List.mem_cons_of_mem h hb) hpb
      simp [List.find?, hph, ih ha' huniq']

/-! ## Claim theorems -/

/-- Claim C7: for every token and every N, applying `markAsUsed` N times
increases `usageCount` by exactly N and leaves `status`, `token`,
`validFrom`, `validTo`, `sequenceNumber`, `createdBy`, `id` and `createdAt`
unchanged. -/
theorem markAsUsed_iterate_frame (t : Token) (N : Nat) :
    (markAsUsed^[N] t).usageCount = t.usageCount + N ∧
    (markAsUsed^[N] t).status = t.status ∧
    (markAsUsed^[N] t).token = t.token ∧
    (markAsUsed^[N] t).validFrom = t.validFrom ∧
    (markAsUsed^[N] t).validTo = t.validTo ∧
    (markAsUsed^[N] t).sequenceNumber = t.sequenceNumber ∧
    (markAsUsed^[N] t).createdBy = t.createdBy ∧
    (markAsUsed^[N] t).id = t.id ∧
    (markAsUsed^[N] t).createdAt = t.createdAt := by
  induction N with
  | zero => simp
  | succ n ih =>
    rw [Function.iterate_succ_apply']
    obtain ⟨h1, h2, h3, h4, h5, h6, h7, h8, h9⟩ := ih
    refine ⟨?_, ?_, ?_, ?_, ?_, ?_, ?_, ?_, ?_⟩ <;>
      simp [markAsUsed, h1, h2, h3, h4, h5, h6, h7, h8, h9, Nat.add_assoc]

/-- Claim C4: `validateQRToken` returns NotFound iff no record with the
exact value exists; returns Valid iff the record is active with
`validFrom ≤ now < validTo`; otherwise returns Expired; and it mutates no
token (the store it hands back is the one it was given). -/
theorem validateQRToken_spec (tokens : List Token) (v : String) (now : Nat)
    (hval : (tokens.map (·.token)).Nodup) :
    (validateQRToken tokens v now).2 = tokens ∧
    ((validateQRToken tokens v now).1 = .notFound ↔ ∀ t ∈ tokens, t.token ≠ v) ∧
    ((∃ e, (validateQRToken tokens v now).1 = .valid e) ↔
      ∃ t ∈ tokens, t.token = v ∧ t.status = .active ∧
        t.validFrom ≤ now ∧ now < t.validTo) ∧
    ((validateQRToken tokens v now).1 = .expired ↔
      (∃ t ∈ tokens, t.token = v) ∧
      ¬ ∃ t ∈ tokens, t.token = v ∧ t.status = .active ∧
        t.validFrom ≤ now ∧ now < t.validTo) := by
  rcases hfind : findToken tokens v with _ | ⟨u⟩
  · have hnone : ∀ t ∈ tokens, ¬ t.token = v := by
      simpa [findToken, List.find?_eq_none] using hfind
    simp only [validateQRToken, hfind]
    refine ⟨trivial, by simpa using hnone, ?_, ?_⟩
    · constructor
      · rintro ⟨e, he⟩; cases he
      · rintro ⟨t, ht, htv, -⟩; exact absurd htv (hnone t ht)
    · constructor
      · intro h; cases h
      · rintro ⟨⟨t, ht, htv⟩, -⟩; exact absurd htv (hnone t ht)
  · have hfind' : tokens.find? (fun t => t.token == v) = some u := by
      simpa [findToken] using hfind
    have humem : u ∈ tokens := List.mem_of_find?_eq_some hfind'
    have huv : u.token = v := by simpa using List.find?_some hfind'
    have huniq : ∀ t ∈ tokens, t.token = v → t = u := by
      intro t ht htv
      exact List.inj_on_of_nodup_map hval ht humem (htv.trans huv.symm)
    by_cases hv : isValidTok u now = true
    · have hv' := hv
      unfold isValidTok at hv'
      simp only [Bool.and_eq_true, beq_iff_eq, decide_eq_true_eq] at hv'
      obtain ⟨⟨hst, hfrom⟩, hto⟩ := hv'
      simp only [validateQRToken, hfind, hv, if_true]
      refine ⟨trivial, ?_, ?_, ?_⟩
      · constructor
        · intro h; cases h
        · intro h; exact absurd huv (h u humem)
      · constructor
        · intro _; exact ⟨u, humem, huv, hst, hfrom, hto⟩
        · intro _; exact ⟨(u.validTo - now) / 1000, rfl⟩
      · constructor
        · intro h; cases h
        · rintro ⟨-, hno⟩
          exact absurd ⟨u, humem, huv, hst, hfrom, hto⟩ hno
    · rw [Bool.not_eq_true] at hv
      simp only [validateQRToken, hfind, hv, Bool.false_eq_true, if_false]
      refine ⟨trivial, ?_, ?_, ?_⟩
      · constructor
        · intro h; cases h
        · intro h; exact absurd huv (h u humem)
      · constructor
        · rintro ⟨e, he⟩; cases he
        · rintro ⟨t, ht, htv, hst, hfrom, hto⟩
          have heq : t = u := huniq t ht htv
          subst heq
          exact absurd (show isValidTok t now = true by
            unfold isValidTok; simp [hst, hfrom, hto]) (by simp [hv])
      · constructor
        · intro _
          refine ⟨⟨u, humem, huv⟩, ?_⟩
          rintro ⟨t, ht, htv, hst, hfrom, hto⟩
          have heq : t = u := huniq t ht htv
          subst heq
          exact absurd (show isValidTok t now = true by
            unfold isValidTok; simp [hst, hfrom, hto]) (by simp [hv])
        · intro _; trivial

/-- Claim C4 witness: on a concrete store with one active token, the lookup
of the stored value is Valid, instantiated from the characterization. -/
theorem validateQRToken_spec_witness :
    ∃ e, (validateQRToken
      [{ id := 0, token := "b", validFrom := 1000, validTo := 31000,
         status := .active, sequenceNumber := .num 1, createdBy := none,
         usageCount := 0, createdAt := 1000 }] "b" 5000).1 =
      ValidateResult.valid e :=
  ((validateQRToken_spec
      [{ id := 0, token := "b", validFrom := 1000, validTo := 31000,
         status := .active, sequenceNumber := .num 1, createdBy := none,
         usageCount := 0, createdAt := 1000 }] "b" 5000
      (by decide)).2.2.1).mpr (by decide)

/-- Claim C10: when the token or the type is missing (JS-falsy) or the type
is not exactly `checkin`/`checkout`, `recordAttendance` rejects with a
400-class client error, the store is untouched, and the outcome does not
depend on the store at all (the rejection happens before any lookup). -/
theorem recordAttendance_input_guard (st : SysState) (u : Nat)
    (tokenInp typeInp : Option String) (now : Nat)
    (h : isFalsy tokenInp = true ∨ isFalsy typeInp = true ∨
      ∀ s, typeInp = some s → s ≠ "checkin" ∧ s ≠ "checkout") :
    ((recordAttendance st u tokenInp typeInp now).1 = .missingFields ∨
      (recordAttendance st u tokenInp typeInp now).1 = .badType) ∧
    recHttpStatus (recordAttendance st u tokenInp typeInp now).1 = 400 ∧
    (recordAttendance st u tokenInp typeInp now).2 = st ∧
    (∀ st2 : SysState, (recordAttendance st2 u tokenInp typeInp now).1 =
      (recordAttendance st u tokenInp typeInp now).1) := by
  by_cases hf : (isFalsy tokenInp || isFalsy typeInp) = true
  · unfold recordAttendance
    simp [hf, recHttpStatus]
  · have hguard : ∀ s, typeInp = some s → s ≠ "checkin" ∧ s ≠ "checkout" := by
      rcases h with h | h | h
      · exact absurd (by simp [h]) hf
      · exact absurd (by simp [h]) hf
      · exact h
    have hty : ∃ s, typeInp = some s ∧ s ≠ "" := by
      rcases typeInp with _ | s
      · exact absurd (by simp [isFalsy]) hf
      · refine ⟨s, rfl, ?_⟩
        intro hs
        exact hf (by simp [isFalsy, hs])
    obtain ⟨s, rfl, -⟩ := hty
    obtain ⟨h1, h2⟩ := hguard s rfl
    unfold recordAttendance
    simp only [hf, if_false, Option.getD_some]
    have hbad : (s == "checkin" || s == "checkout") = false := by
      simp [h1, h2]
    simp [hbad, recHttpStatus]

/-- Claim C10 witness: a missing token is rejected with a 400 and an
unchanged store, for a concrete non-empty store. -/
theorem recordAttendance_input_guard_witness :
    (((recordAttendance { tokens := [], logs := [] } 7 none (some "checkin") 5000).1 =
        .missingFields ∨
      (recordAttendance { tokens := [], logs := [] } 7 none (some "checkin") 5000).1 =
        .badType) ∧
     recHttpStatus
       (recordAttendance { tokens := [], logs := [] } 7 none (some "checkin") 5000).1 = 400 ∧
     (recordAttendance { tokens := [], logs := [] } 7 none (some "checkin") 5000).2 =
       { tokens := [], logs := [] } ∧
     (∀ st2 : SysState,
       (recordAttendance st2 7 none (some "checkin") 5000).1 =
       (recordAttendance { tokens := [], logs := [] } 7 none (some "checkin") 5000).1)) :=
  recordAttendance_input_guard { tokens := [], logs := [] } 7 none (some "checkin") 5000
    (Or.inl (by decide))

/-- `filterMap` over `toNum` ignores documents that do not match the
number-type query. -/
theorem filterMap_toNum_filter (tokens : List Token) :
    ((tokens.filter (fun t => t.sequenceNumber.isNumberType)).filterMap
      (fun t => t.sequenceNumber.toNum)) =
    tokens.filterMap (fun t => t.sequenceNumber.toNum) := by
  induction tokens with
  | nil => rfl
  | cons t ts ih =>
    cases h : t.sequenceNumber with
    | num n =>
      have h1 : t.sequenceNumber.isNumberType = true := by rw [h]; rfl
      have h2 : t.sequenceNumber.toNum = some n := by rw [h]; rfl
      simp [List.filter_cons, List.filterMap_cons, h1, h2, ih]
    | nan =>
      have h1 : t.sequenceNumber.isNumberType = true := by rw [h]; rfl
      have h2 : t.sequenceNumber.toNum = none := by rw [h]; rfl
      simp [List.filter_cons, List.filterMap_cons, h1, h2, ih]
    | nonNumeric =>
      have h1 : t.sequenceNumber.isNumberType = false := by rw [h]; rfl
      have h2 : t.sequenceNumber.toNum = none := by rw [h]; rfl
      simp [List.filter_cons, List.filterMap_cons, h1, h2, ih]
    | missing =>
      have h1 : t.sequenceNumber.isNumberType = false := by rw [h]; rfl
      have h2 : t.sequenceNumber.toNum = none := by rw [h]; rfl
      simp [List.filter_cons, List.filterMap_cons, h1, h2, ih]

/-- `pickMaxBySeq` returns nothing exactly on the empty list. -/
theorem pickMaxBySeq_eq_none (l : List Token) : pickMaxBySeq l = none ↔ l = [] := by
  cases l with
  | nil => simp [pickMaxBySeq]
  | cons t ts =>
    simp only [pickMaxBySeq]
    constructor
    · intro h
      rcases h2 : pickMaxBySeq ts with _ | w <;> rw [h2] at h <;> simp at h
    · intro h; cases h

/-- The document `pickMaxBySeq` returns comes from the list. -/
theorem pickMaxBySeq_mem : ∀ (l : List Token) (b : Token), pickMaxBySeq l = some b → b ∈ l := by
  intro l
  induction l with
  | nil => intro b hb; cases hb
  | cons t ts ih =>
    intro b hb
    rcases h2 : pickMaxBySeq ts with _ | w
    · simp only [pickMaxBySeq, h2] at hb
      cases hb
      exact List.mem_cons_self t ts
    · simp only [pickMaxBySeq, h2] at hb
      by_cases hgt : w.sequenceNumber.gtB t.sequenceNumber = true
      · rw [if_pos hgt] at hb
        cases hb
        exact List.mem_cons_of_mem t (ih _ h2)
      · rw [if_neg hgt] at hb
        cases hb
        exact List.mem_cons_self t ts

/-- The document chosen by the descending sequence-number sort carries the
maximum proper numeric value of the list (and a NaN winner means the list
has no proper numeric value at all). -/
theorem pickMaxBySeq_toNum : ∀ (l : List Token),
    (∀ t ∈ l, t.sequenceNumber.isNumberType = true) →
    ∀ b, pickMaxBySeq l = some b →
      b.sequenceNumber.toNum = (l.filterMap (fun t => t.sequenceNumber.toNum)).max? := by
  intro l
  induction l with
  | nil => intro _ b hb; cases hb
  | cons t ts ih =>
    intro hl b hb
    have ht : t.sequenceNumber.isNumberType = true := hl t (List.mem_cons_self t ts)
    have hts : ∀ x ∈ ts, x.sequenceNumber.isNumberType = true := fun x hx =>
      hl x (List.mem_cons_of_mem t hx)
    rcases h2 : pickMaxBySeq ts with _ | w
    · have hnil : ts = [] := (pickMaxBySeq_eq_none ts).mp h2
      subst hnil
      simp only [pickMaxBySeq] at hb
      injection hb with hb'
      subst hb'
      cases hs : t.sequenceNumber with
      | num n =>
        simp [List.filterMap_cons, List.filterMap_nil, hs, SeqVal.toNum,
          List.max?_cons, List.max?_nil, Option.elim]
      | nan =>
        simp [List.filterMap_cons, List.filterMap_nil, hs, SeqVal.toNum]
      | nonNumeric => rw [hs] at ht; cases ht
      | missing => rw [hs] at ht; cases ht
    · have hw := ih hts w h2
      have hwty : w.sequenceNumber.isNumberType = true := hts w (pickMaxBySeq_mem ts w h2)
      simp only [pickMaxBySeq, h2] at hb
      by_cases hgt : w.sequenceNumber.gtB t.sequenceNumber = true
      · rw [if_pos hgt] at hb
        injection hb with hb'
        subst hb'
        cases hs : t.sequenceNumber with
        | num a =>
          cases hsw : w.sequenceNumber with
          | num m =>
            have hlt : a < m := by
              rw [hs, hsw] at hgt
              simpa [SeqVal.gtB] using hgt
            simp only [SeqVal.toNum, hsw] at hw
            simp only [SeqVal.toNum, List.filterMap_cons, hs, List.max?_cons]
            rw [← hw]
            simp [Option.elim, max_eq_right (le_of_lt hlt)]
          | nan =>
            rw [hs, hsw] at hgt
            simp [SeqVal.gtB] at hgt
          | nonNumeric => rw [hsw] at hwty; cases hwty
          | missing => rw [hsw] at hwty; cases hwty
        | nan =>
          simp only [SeqVal.toNum] at hw
          simp only [SeqVal.toNum, List.filterMap_cons, hs]
          exact hw
        | nonNumeric => rw [hs] at ht; cases ht
        | missing => rw [hs] at ht; cases ht
      · rw [if_neg hgt] at hb
        injection hb with hb'
        subst hb'
        cases hs : t.sequenceNumber with
        | num a =>
          cases hsw : w.sequenceNumber with
          | num m =>
            have hle : m ≤ a := by
              rw [hsw, hs] at hgt
              simp [SeqVal.gtB] at hgt
              omega
            simp only [SeqVal.toNum, hsw] at hw
            simp only [SeqVal.toNum, List.filterMap_cons, hs, List.max?_cons]
            rw [← hw]
            simp [Option.elim, max_eq_left hle]
          | nan =>
            simp only [SeqVal.toNum, hsw] at hw
            simp only [SeqVal.toNum, List.filterMap_cons, hs, List.max?_cons]
            rw [← hw]
            simp [Option.elim]
          | nonNumeric => rw [hsw] at hwty; cases hwty
          | missing => rw [hsw] at hwty; cases hwty
        | nan =>
          cases hsw : w.sequenceNumber with
          | num m =>
            rw [hsw, hs] at hgt
            simp [SeqVal.gtB] at hgt
          | nan =>
            simp only [SeqVal.toNum, hsw] at hw
            simp only [SeqVal.toNum, List.filterMap_cons, hs]
            exact hw
          | nonNumeric => rw [hsw] at hwty; cases hwty
          | missing => rw [hsw] at hwty; cases hwty
        | nonNumeric => rw [hs] at ht; cases ht
        | missing => rw [hs] at ht; cases ht

/-- `getNextSequence` is one more than the maximum proper numeric sequence
number present, or 1 when there is none. -/
theorem getNextSequence_eq (tokens : List Token) :
    getNextSequence tokens =
      ((((tokens.filterMap (fun t => t.sequenceNumber.toNum)).max?).map (· + 1)).getD 1) := by
  unfold getNextSequence
  rcases hpick : pickMaxBySeq (tokens.filter (fun t => t.sequenceNumber.isNumberType))
    with _ | ⟨b⟩
  · have hnil : tokens.filter (fun t => t.sequenceNumber.isNumberType) = [] :=
      (pickMaxBySeq_eq_none _).mp hpick
    have hfm : tokens.filterMap (fun t => t.sequenceNumber.toNum) = [] := by
      rw [← filterMap_toNum_filter, hnil]
      rfl
    simp [hfm]
  · have hl : ∀ t ∈ tokens.filter (fun t => t.sequenceNumber.isNumberType),
        t.sequenceNumber.isNumberType = true := by
      intro t htm
      exact (List.mem_filter.mp htm).2
    have hmax := pickMaxBySeq_toNum _ hl b hpick
    rw [filterMap_toNum_filter] at hmax
    have hbty : b.sequenceNumber.isNumberType = true :=
      hl b (pickMaxBySeq_mem _ b hpick)
    cases hs : b.sequenceNumber with
    | num n =>
      rw [hs] at hmax
      simp only [SeqVal.toNum] at hmax
      simp only [SeqVal.toNum]
      rw [← hmax, hs]
      rfl
    | nan =>
      rw [hs] at hmax
      simp only [SeqVal.toNum] at hmax
      simp only [SeqVal.toNum]
      rw [← hmax, hs]
      rfl
    | nonNumeric => rw [hs] at hbty; cases hbty
    | missing => rw [hs] at hbty; cases hbty

/-- Claim C6: the sequence number `generateQRCode` assigns is the highest
proper numeric sequence number in the store plus 1, defaulting to 1 when no
record carries one; records with a missing, non-numeric or NaN sequence
number are ignored. -/
theorem generateQRCode_seq (store : TokenStore) (now validitySeconds : Nat)
    (tokenValue : String) (createdBy : Option Nat) :
    (generateQRCode store now validitySeconds tokenValue createdBy).1.sequenceNumber =
      .num ((((store.tokens.filterMap (fun t => t.sequenceNumber.toNum)).max?).map
        (· + 1)).getD 1) := by
  show SeqVal.num (getNextSequence store.tokens) = _
  rw [getNextSequence_eq]

/-- A log of the given action exists in today's window for the user iff the
boolean scan of `todayLogs` says so. -/
theorem anyTodayType_iff (logs : List AttendanceLog) (u now : Nat) (ty : LogType) :
    (hasTypeTodayB logs u now ty = true) ↔
    ∃ l ∈ logs, l.userId = u ∧ l.type = ty ∧
      getStartOfToday now ≤ l.timestamp ∧ l.timestamp ≤ getEndOfToday now := by
  simp only [hasTypeTodayB, todayLogs, List.any_eq_true, List.mem_filter, Bool.and_eq_true,
    beq_iff_eq, decide_eq_true_eq]
  constructor
  · rintro ⟨l, ⟨hl, ⟨⟨hu, h1⟩, h2⟩⟩, hty⟩
    exact ⟨l, hl, hu, hty, h1, h2⟩
  · rintro ⟨l, hl, hu, hty, h1, h2⟩
    exact ⟨l, ⟨hl, ⟨⟨hu, h1⟩, h2⟩⟩, hty⟩

/-- Claim C2: a check-in with a valid token is rejected with
AlreadyCheckedIn exactly when the user already has a check-in log inside
today's Saudi-local window — regardless of any session state — in which
case nothing changes; otherwise a check-in log is appended and the token's
`usageCount` is bumped via `markAsUsed`. -/
theorem recordAttendance_checkin_dedupe (st : SysState) (u : Nat) (v : String)
    (now : Nat) (qt : Token)
    (hv : v ≠ "")
    (hfind : findToken st.tokens v = some qt)
    (hvalid : isValidTok qt now = true) :
    ((recordAttendance st u (some v) (some "checkin") now).1 = .alreadyCheckedIn ↔
      ∃ l ∈ st.logs, l.userId = u ∧ l.type = .checkin ∧
        getStartOfToday now ≤ l.timestamp ∧ l.timestamp ≤ getEndOfToday now) ∧
    ((recordAttendance st u (some v) (some "checkin") now).1 = .alreadyCheckedIn →
      (recordAttendance st u (some v) (some "checkin") now).2 = st) ∧
    ((¬ ∃ l ∈ st.logs, l.userId = u ∧ l.type = .checkin ∧
        getStartOfToday now ≤ l.timestamp ∧ l.timestamp ≤ getEndOfToday now) →
      ∃ newLog : AttendanceLog,
        (recordAttendance st u (some v) (some "checkin") now).1 = .success newLog ∧
        newLog.userId = u ∧ newLog.type = .checkin ∧ newLog.timestamp = now ∧
        (recordAttendance st u (some v) (some "checkin") now).2.logs =
          st.logs ++ [newLog] ∧
        (recordAttendance st u (some v) (some "checkin") now).2.tokens =
          st.tokens.map (fun t => if t.id == qt.id then markAsUsed t else t)) := by
  have hred : recordAttendance st u (some v) (some "checkin") now =
      (if hasTypeTodayB st.logs u now .checkin then
        ((.alreadyCheckedIn : RecordResult), st)
      else recordSuccess st u now .checkin qt) := by
    unfold recordAttendance
    simp [isFalsy, hv, hfind, hvalid]
  rw [hred]
  by_cases hc : hasTypeTodayB st.logs u now .checkin = true
  · simp only [hc, if_true]
    refine ⟨?_, ?_, ?_⟩
    · constructor
      · intro _
        exact (anyTodayType_iff st.logs u now .checkin).mp hc
      · intro _
        trivial
    · intro _
      trivial
    · intro h
      exact absurd ((anyTodayType_iff st.logs u now .checkin).mp hc) h
  · rw [Bool.not_eq_true] at hc
    simp only [hc, Bool.false_eq_true, if_false]
    refine ⟨?_, ?_, ?_⟩
    · constructor
      · intro h
        simp [recordSuccess] at h
      · intro h
        have h2 := (anyTodayType_iff st.logs u now .checkin).mpr h
        rw [hc] at h2
        cases h2
    · intro h
      simp [recordSuccess] at h
    · intro _
      exact ⟨mkQRLog u now .checkin qt, rfl, rfl, rfl, rfl, rfl, rfl⟩

/-- A concrete active token used by witnesses. -/
def demoTok : Token :=
  { id := 0
    token := "b"
    validFrom := 1000
    validTo := 31000
    status := .active
    sequenceNumber := .num 1
    createdBy := none
    usageCount := 0
    createdAt := 1000 }

/-- A concrete check-in log used by witnesses. -/
def demoCheckinLog : AttendanceLog :=
  { userId := 7
    type := .checkin
    timestamp := 5000
    method := "qr"
    tokenId := none
    qrSequence := .missing }

/-- Claim C2 witness: with one check-in already logged today, a second
check-in the same day is rejected with AlreadyCheckedIn. -/
theorem recordAttendance_checkin_dedupe_witness :
    (recordAttendance { tokens := [demoTok], logs := [demoCheckinLog] }
      7 (some "b") (some "checkin") 6000).1 = .alreadyCheckedIn :=
  (recordAttendance_checkin_dedupe
    { tokens := [demoTok], logs := [demoCheckinLog] } 7 "b" 6000 demoTok
    (by decide) (by decide) (by decide)).1.mpr (by decide)

/-- `pickLatest` returns nothing exactly on the empty list. -/
theorem pickLatest_eq_none (l : List AttendanceLog) : pickLatest l = none ↔ l = [] := by
  cases l with
  | nil => simp [pickLatest]
  | cons t ts =>
    simp only [pickLatest]
    constructor
    · intro h
      rcases h2 : pickLatest ts with _ | w <;> rw [h2] at h <;> simp at h
    · intro h; cases h

/-- The user has no check-in log at all iff `latestCheckin` finds none. -/
theorem latestCheckin_eq_none_iff (logs : List AttendanceLog) (u : Nat) :
    latestCheckin logs u = none ↔
      ∀ l ∈ logs, ¬ (l.userId = u ∧ l.type = LogType.checkin) := by
  rw [latestCheckin, pickLatest_eq_none, List.filter_eq_nil_iff]
  constructor
  · intro h l hl hcontra
    exact absurd (by simp [hcontra.1, hcontra.2]) (h l hl)
  · intro h l hl
    simp only [Bool.and_eq_true, beq_iff_eq, not_and]
    intro hu hty
    exact absurd ⟨hu, hty⟩ (h l hl)

/-- A checkout strictly later than the given instant exists for the user iff
the boolean scan says so. -/
theorem anyCheckoutAfter_iff (logs : List AttendanceLog) (u ts : Nat) :
    (hasCheckoutAfterB logs u ts = true) ↔
    ∃ l ∈ logs, l.userId = u ∧ l.type = LogType.checkout ∧ ts < l.timestamp := by
  simp only [hasCheckoutAfterB, List.any_eq_true, Bool.and_eq_true, beq_iff_eq,
    decide_eq_true_eq]
  constructor
  · rintro ⟨l, hl, ⟨⟨hu, hty⟩, hts⟩⟩
    exact ⟨l, hl, hu, hty, hts⟩
  · rintro ⟨l, hl, hu, hty, hts⟩
    exact ⟨l, hl, ⟨⟨hu, hty⟩, hts⟩⟩

/-- Claim C3, amended to the code's actual checkout rules.  With a valid
token and action `checkout`:
* if the user has no check-in log at all, the call is rejected with
  NoOpenSession;
* otherwise, writing `lc` for the latest check-in: if some checkout is
  strictly later than `lc` and no check-in falls within today, the call is
  rejected with NoOpenSession;
* failing that, if some checkout falls within today and `lc`'s Saudi-local
  day equals today's, the call is rejected with AlreadyCheckedOut — the
  trigger is any checkout within today, not only one later than `lc`;
* otherwise (in particular when `lc`'s day differs from today — the
  cross-midnight allowance) a checkout log is appended and the token is
  marked used. -/
theorem recordAttendance_checkout_rules (st : SysState) (u : Nat) (v : String)
    (now : Nat) (qt : Token)
    (hv : v ≠ "")
    (hfind : findToken st.tokens v = some qt)
    (hvalid : isValidTok qt now = true) :
    ((∀ l ∈ st.logs, ¬ (l.userId = u ∧ l.type = LogType.checkin)) →
      recordAttendance st u (some v) (some "checkout") now = (.noOpenSession, st)) ∧
    (∀ lc, latestCheckin st.logs u = some lc →
      (((∃ l ∈ st.logs, l.userId = u ∧ l.type = .checkout ∧ lc.timestamp < l.timestamp) ∧
        ¬ ∃ l ∈ st.logs, l.userId = u ∧ l.type = .checkin ∧
          getStartOfToday now ≤ l.timestamp ∧ l.timestamp ≤ getEndOfToday now) →
        recordAttendance st u (some v) (some "checkout") now = (.noOpenSession, st)) ∧
      ((¬((∃ l ∈ st.logs, l.userId = u ∧ l.type = .checkout ∧ lc.timestamp < l.timestamp) ∧
        ¬ ∃ l ∈ st.logs, l.userId = u ∧ l.type = .checkin ∧
          getStartOfToday now ≤ l.timestamp ∧ l.timestamp ≤ getEndOfToday now) ∧
        ((∃ l ∈ st.logs, l.userId = u ∧ l.type = .checkout ∧
          getStartOfToday now ≤ l.timestamp ∧ l.timestamp ≤ getEndOfToday now) ∧
          saudiDayIndex lc.timestamp = saudiDayIndex now)) →
        recordAttendance st u (some v) (some "checkout") now = (.alreadyCheckedOut, st)) ∧
      ((¬((∃ l ∈ st.logs, l.userId = u ∧ l.type = .checkout ∧ lc.timestamp < l.timestamp) ∧
        ¬ ∃ l ∈ st.logs, l.userId = u ∧ l.type = .checkin ∧
          getStartOfToday now ≤ l.timestamp ∧ l.timestamp ≤ getEndOfToday now) ∧
        ¬((∃ l ∈ st.logs, l.userId = u ∧ l.type = .checkout ∧
          getStartOfToday now ≤ l.timestamp ∧ l.timestamp ≤ getEndOfToday now) ∧
          saudiDayIndex lc.timestamp = saudiDayIndex now)) →
        ∃ newLog : AttendanceLog,
          (recordAttendance st u (some v) (some "checkout") now).1 = .success newLog ∧
          newLog.userId = u ∧ newLog.type = .checkout ∧ newLog.timestamp = now ∧
          (recordAttendance st u (some v) (some "checkout") now).2.logs =
            st.logs ++ [newLog] ∧
          (recordAttendance st u (some v) (some "checkout") now).2.tokens =
            st.tokens.map (fun t => if t.id == qt.id then markAsUsed t else t))) := by
  have hred : recordAttendance st u (some v) (some "checkout") now =
      (match latestCheckin st.logs u with
      | none => ((.noOpenSession : RecordResult), st)
      | some lastCheckIn =>
        if hasCheckoutAfterB st.logs u lastCheckIn.timestamp &&
            !hasTypeTodayB st.logs u now .checkin then (.noOpenSession, st)
        else if hasTypeTodayB st.logs u now .checkout &&
            (saudiDayIndex lastCheckIn.timestamp == saudiDayIndex now) then
          (.alreadyCheckedOut, st)
        else recordSuccess st u now .checkout qt) := by
    unfold recordAttendance
    simp [isFalsy, hv, hfind, hvalid]
  rw [hred]
  refine ⟨?_, ?_⟩
  · intro h
    have hn : latestCheckin st.logs u = none := (latestCheckin_eq_none_iff st.logs u).mpr h
    rw [hn]
  · intro lc hlc
    simp only [hlc]
    refine ⟨?_, ?_, ?_⟩
    · rintro ⟨hA, hI⟩
      have hAb : hasCheckoutAfterB st.logs u lc.timestamp = true :=
        (anyCheckoutAfter_iff st.logs u lc.timestamp).mpr hA
      have hIb : hasTypeTodayB st.logs u now .checkin = false := by
        rw [← Bool.not_eq_true]
        intro hI'
        exact hI ((anyTodayType_iff st.logs u now .checkin).mp hI')
      rw [hAb, hIb]
      rfl
    · rintro ⟨hnA, ⟨hO, hS⟩⟩
      have hg1 : (hasCheckoutAfterB st.logs u lc.timestamp &&
          !hasTypeTodayB st.logs u now .checkin) = false := by
        rw [← Bool.not_eq_true]
        intro hg
        rw [Bool.and_eq_true, Bool.not_eq_true'] at hg
        refine hnA ⟨(anyCheckoutAfter_iff st.logs u lc.timestamp).mp hg.1, ?_⟩
        intro hin
        have := (anyTodayType_iff st.logs u now .checkin).mpr hin
        rw [hg.2] at this
        cases this
      have hOb : hasTypeTodayB st.logs u now .checkout = true :=
        (anyTodayType_iff st.logs u now .checkout).mpr hO
      have hSb : (saudiDayIndex lc.timestamp == saudiDayIndex now) = true :=
        beq_iff_eq.mpr hS
      rw [hg1, hOb, hSb]
      rfl
    · rintro ⟨hnA, hnB⟩
      have hg1 : (hasCheckoutAfterB st.logs u lc.timestamp &&
          !hasTypeTodayB st.logs u now .checkin) = false := by
        rw [← Bool.not_eq_true]
        intro hg
        rw [Bool.and_eq_true, Bool.not_eq_true'] at hg
        refine hnA ⟨(anyCheckoutAfter_iff st.logs u lc.timestamp).mp hg.1, ?_⟩
        intro hin
        have := (anyTodayType_iff st.logs u now .checkin).mpr hin
        rw [hg.2] at this
        cases this
      have hg2 : (hasTypeTodayB st.logs u now .checkout &&
          (saudiDayIndex lc.timestamp == saudiDayIndex now)) = false := by
        rw [← Bool.not_eq_true]
        intro hg
        rw [Bool.and_eq_true] at hg
        exact hnB ⟨(anyTodayType_iff st.logs u now .checkout).mp hg.1,
          beq_iff_eq.mp hg.2⟩
      rw [hg1, hg2]
      simp only [Bool.false_eq_true, if_false]
      exact ⟨mkQRLog u now .checkout qt, rfl, rfl, rfl, rfl, rfl, rfl⟩

/-- Claim C3 witness (amended): a fresh user with no check-in logs is
rejected with NoOpenSession on checkout. -/
theorem recordAttendance_checkout_rules_witness :
    recordAttendance { tokens := [demoTok], logs := [] }
      7 (some "b") (some "checkout") 6000 =
      (.noOpenSession, { tokens := [demoTok], logs := [] }) :=
  (recordAttendance_checkout_rules { tokens := [demoTok], logs := [] } 7 "b" 6000 demoTok
    (by decide) (by decide) (by decide)).1 (by decide)

/-- Concrete history refuting claim C3 as stated: for user 7 (times in ms,
Saudi day boundaries at 75600000): check-in on day 0 (ts 50000000),
checkout on day 1 closing it (ts 80000000), new check-in on day 1
(ts 120000000) which is still open. -/
def cxLogs : List AttendanceLog :=
  [{ userId := 7, type := .checkin, timestamp := 50000000,
     method := "qr", tokenId := none, qrSequence := .missing },
   { userId := 7, type := .checkout, timestamp := 80000000,
     method := "qr", tokenId := none, qrSequence := .missing },
   { userId := 7, type := .checkin, timestamp := 120000000,
     method := "qr", tokenId := none, qrSequence := .missing }]

/-- A token valid at the counterexample instant 150000000. -/
def cxTok : Token :=
  { id := 0
    token := "b"
    validFrom := 149000000
    validTo := 151000000
    status := .active
    sequenceNumber := .num 1
    createdBy := none
    usageCount := 0
    createdAt := 149000000 }

/-- Claim C3 counterexample: at ts 150000000 (same Saudi day as the open
check-in) the checkout is rejected with AlreadyCheckedOut, yet no checkout
later than the current open check-in exists — the one checkout of the day
(ts 80000000) precedes the open check-in (ts 120000000), which has no later
checkout at all.  The claim permits this checkout; the code rejects it. -/
theorem recordAttendance_checkout_counterexample :
    (recordAttendance { tokens := [cxTok], logs := cxLogs }
      7 (some "b") (some "checkout") 150000000).1 = .alreadyCheckedOut ∧
    (∃ lc ∈ cxLogs, lc.userId = 7 ∧ lc.type = LogType.checkin ∧
      ∀ l ∈ cxLogs, l.type = LogType.checkout → l.timestamp < lc.timestamp) := by
  decide

/-- Claim C8, amended to the code's actual behaviour: a token value with no
record is rejected as `invalidToken` (HTTP 404, message "Invalid QR code"),
while an existing record failing `isValid()` is rejected as `expiredToken`
(HTTP 400, message "QR code has expired or is no longer active") — two
caller-distinguishable categories, so token existence is leaked. -/
theorem recordAttendance_token_reject_distinct (st : SysState) (u : Nat)
    (v ty : String) (now : Nat)
    (hv : v ≠ "")
    (hty : ty = "checkin" ∨ ty = "checkout") :
    (findToken st.tokens v = none →
      (recordAttendance st u (some v) (some ty) now).1 = .invalidToken) ∧
    (∀ qt, findToken st.tokens v = some qt → isValidTok qt now = false →
      (recordAttendance st u (some v) (some ty) now).1 = .expiredToken) ∧
    recHttpStatus .invalidToken = 404 ∧
    recHttpStatus .expiredToken = 400 ∧
    recMessage .invalidToken = "Invalid QR code" ∧
    recMessage .expiredToken = "QR code has expired or is no longer active" := by
  have h1 : isFalsy (some v) = false := by simp [isFalsy, hv]
  have h2 : isFalsy (some ty) = false := by
    rcases hty with h | h <;> simp [isFalsy, h]
  have h3 : (ty == "checkin" || ty == "checkout") = true := by
    rcases hty with h | h <;> simp [h]
  refine ⟨?_, ?_, rfl, rfl, rfl, rfl⟩
  · intro hn
    unfold recordAttendance
    simp [h1, h2, h3, hn]
  · intro qt hq hnv
    unfold recordAttendance
    simp [h1, h2, h3, hq, hnv]

/-- Claim C8 witness (amended): a value absent from an empty store is
rejected as `invalidToken`. -/
theorem recordAttendance_token_reject_distinct_witness :
    (recordAttendance { tokens := [], logs := [] } 7 (some "x") (some "checkin") 5).1 =
      .invalidToken :=
  (recordAttendance_token_reject_distinct { tokens := [], logs := [] } 7 "x" "checkin" 5
    (by decide) (Or.inl rfl)).1 (by decide)

/-- A token whose window has elapsed by instant 5000. -/
def c8Tok : Token :=
  { id := 0
    token := "b"
    validFrom := 1000
    validTo := 2000
    status := .active
    sequenceNumber := .num 1
    createdBy := none
    usageCount := 0
    createdAt := 1000 }

/-- Claim C8 counterexample: at one store state and instant, the unknown
value "a" and the expired value "b" are rejected with different HTTP
statuses (404 vs 400) and different messages, in both `validateQRToken` and
`recordAttendance` — the two cases do not collapse into one caller-facing
category, so a caller can tell a nonexistent token from an expired one. -/
theorem qr_reject_distinguishable_counterexample :
    valHttpStatus (validateQRToken [c8Tok] "a" 5000).1 = 404 ∧
    valHttpStatus (validateQRToken [c8Tok] "b" 5000).1 = 400 ∧
    valMessage (validateQRToken [c8Tok] "a" 5000).1 = "Invalid QR code" ∧
    valMessage (validateQRToken [c8Tok] "b" 5000).1 =
      "QR code has expired or is no longer active" ∧
    recHttpStatus (recordAttendance { tokens := [c8Tok], logs := [] }
      7 (some "a") (some "checkin") 5000).1 = 404 ∧
    recHttpStatus (recordAttendance { tokens := [c8Tok], logs := [] }
      7 (some "b") (some "checkin") 5000).1 = 400 := by
  decide

/-- An active user scheduled to work on Thursdays. -/
def absDemoUser : AbsUser :=
  { id := 7, workDays := ["thursday"], isActive := true }

/-- Claim C9 evaluated at its failing input: at instant 0 (a Thursday in
Saudi time), an active user whose workDays include the weekday and who has
no check-in log is absent, yet the sweep emits zero notifications and
aborts: building the notification payload evaluates `today.toISOString()`
with `today` undefined in that revision, so a ReferenceError is thrown and
swallowed by the catch (the earlier revision dies even sooner, in
`toLocaleDateString` with the invalid option `weekday: 'lowercase'`). -/
theorem checkAbsentUsers_emits_nothing :
    checkAbsentUsers [absDemoUser] [] 0 = { notified := [], aborted := true } := by
  decide

/-! ### Retention-prune machinery -/

/-- `moreRecent` is irreflexive. -/
theorem moreRecent_irrefl (a : Token) : moreRecent a a = false := by
  simp only [moreRecent, Bool.or_eq_false_iff, Bool.and_eq_false_iff]
  constructor
  · simp
  · right; simp

/-- `moreRecent` is asymmetric. -/
theorem moreRecent_asymm {a b : Token} (h : moreRecent a b = true) :
    moreRecent b a = false := by
  simp only [moreRecent, Bool.or_eq_true, Bool.and_eq_true, beq_iff_eq,
    decide_eq_true_eq] at h
  simp only [moreRecent, Bool.or_eq_false_iff, Bool.and_eq_false_iff, beq_eq_false_iff_ne,
    ne_eq, decide_eq_false_iff_not]
  omega

/-- `recentLe` is transitive (as required by `mergeSort`). -/
theorem recentLe_trans (a b c : Token) (hab : recentLe a b = true)
    (hbc : recentLe b c = true) : recentLe a c = true := by
  simp only [recentLe, Bool.not_eq_true', moreRecent, Bool.or_eq_false_iff,
    Bool.and_eq_false_iff, beq_eq_false_iff_ne, ne_eq, decide_eq_false_iff_not]
    at hab hbc ⊢
  omega

/-- `recentLe` is total (as required by `mergeSort`). -/
theorem recentLe_total (a b : Token) : (recentLe a b || recentLe b a) = true := by
  simp only [recentLe, Bool.or_eq_true, Bool.not_eq_true', moreRecent,
    Bool.or_eq_false_iff, Bool.and_eq_false_iff, beq_eq_false_iff_ne, ne_eq,
    decide_eq_false_iff_not]
  omega

/-- Tokens with distinct `_id`s that compare `recentLe` compare strictly. -/
theorem moreRecent_of_le_ne {a b : Token} (hle : recentLe a b = true)
    (hne : a.id ≠ b.id) : moreRecent a b = true := by
  simp only [recentLe, Bool.not_eq_true'] at hle
  simp only [moreRecent, Bool.or_eq_false_iff, Bool.and_eq_false_iff,
    beq_eq_false_iff_ne, ne_eq, decide_eq_false_iff_not] at hle
  simp only [moreRecent, Bool.or_eq_true, Bool.and_eq_true, beq_iff_eq,
    decide_eq_true_eq]
  omega

/-- In a strictly recency-sorted duplicate-free list, membership of the
`n`-long prefix is exactly having fewer than `n` strictly more recent
elements. -/
theorem mem_take_iff_rank : ∀ (s : List Token),
    s.Pairwise (fun a b => moreRecent a b = true) → s.Nodup →
    ∀ (n : Nat) (t : Token),
      (t ∈ s.take n ↔ t ∈ s ∧ s.countP (fun u => moreRecent u t) < n) := by
  intro s
  induction s with
  | nil => intro _ _ n t; simp
  | cons h rest ih =>
    intro hp hnd n t
    obtain ⟨hhr, hrest⟩ := List.pairwise_cons.mp hp
    obtain ⟨hhin, hndr⟩ := List.nodup_cons.mp hnd
    cases n with
    | zero => simp
    | succ n =>
      rw [List.take_succ_cons]
      by_cases hth : t = h
      · subst hth
        have hc0 : (t :: rest).countP (fun u => moreRecent u t) = 0 := by
          rw [List.countP_eq_zero]
          intro a ha
          rcases List.mem_cons.mp ha with rfl | ha'
          · simp [moreRecent_irrefl]
          · simp [moreRecent_asymm (hhr a ha')]
        simp [hc0]
      · have hcnt : t ∈ rest →
            (h :: rest).countP (fun u => moreRecent u t) =
              rest.countP (fun u => moreRecent u t) + 1 := by
          intro htr
          rw [List.countP_cons]
          simp [hhr t htr]
        constructor
        · intro h1
          have h2 : t ∈ List.take n rest := by
            rcases List.mem_cons.mp h1 with rfl | h'
            · exact absurd rfl hth
            · exact h'
          have h3 := (ih hrest hndr n t).mp h2
          have htr : t ∈ rest := h3.1
          refine ⟨List.mem_cons_of_mem h htr, ?_⟩
          rw [hcnt htr]
          omega
        · rintro ⟨hts, hcount⟩
          have htr : t ∈ rest := by
            rcases List.mem_cons.mp hts with rfl | h'
            · exact absurd rfl hth
            · exact h'
          rw [hcnt htr] at hcount
          have := (ih hrest hndr n t).mpr ⟨htr, by omega⟩
          exact List.mem_cons_of_mem h this

/-- Rank characterization of the 10-element retention prefix, transported
from the sorted permutation back to the raw list. -/
theorem mem_take_sorted_iff (l : List Token) (hnd : (l.map (·.id)).Nodup) (t : Token) :
    t ∈ (l.mergeSort recentLe).take 10 ↔
      t ∈ l ∧ l.countP (fun u => moreRecent u t) < 10 := by
  have hperm : (l.mergeSort recentLe).Perm l := List.mergeSort_perm l recentLe
  have hpair : (l.mergeSort recentLe).Pairwise (fun a b => recentLe a b = true) :=
    List.sorted_mergeSort recentLe_trans recentLe_total l
  have hndm : ((l.mergeSort recentLe).map (·.id)).Nodup :=
    (List.Perm.nodup_iff (List.Perm.map _ hperm)).mpr hnd
  have hne : (l.mergeSort recentLe).Pairwise (fun a b => a.id ≠ b.id) := by
    have := hndm
    rw [List.Nodup, List.pairwise_map] at this
    exact this
  have hstrict : (l.mergeSort recentLe).Pairwise (fun a b => moreRecent a b = true) :=
    (hpair.and hne).imp (fun hab => moreRecent_of_le_ne hab.1 hab.2)
  have hndl : (l.mergeSort recentLe).Nodup := List.Nodup.of_map _ hndm
  rw [mem_take_iff_rank _ hstrict hndl 10 t, List.Perm.mem_iff hperm,
    List.Perm.countP_eq _ hperm]

/-- Membership in the pruned store is exactly membership among the 10 most
recently created tokens. -/
theorem mem_pruneTokens_iff (l : List Token) (hnd : (l.map (·.id)).Nodup) (t : Token) :
    t ∈ pruneTokens l ↔ t ∈ l ∧ l.countP (fun u => moreRecent u t) < 10 := by
  unfold pruneTokens
  simp only [List.mem_filter, List.contains_eq_any_beq, List.any_eq_true, List.mem_map,
    beq_iff_eq]
  constructor
  · rintro ⟨htl, x, ⟨u, hu, rfl⟩, hxid⟩
    have humem : u ∈ l := List.Perm.mem_iff (List.mergeSort_perm l recentLe) |>.mp
      (List.mem_of_mem_take hu)
    have hut : u = t := List.inj_on_of_nodup_map hnd humem htl hxid.symm
    subst hut
    exact (mem_take_sorted_iff l hnd u).mp hu
  · rintro ⟨htl, hrank⟩
    refine ⟨htl, t.id, ⟨t, (mem_take_sorted_iff l hnd t).mpr ⟨htl, hrank⟩, rfl⟩, rfl⟩

/-- The pruned store never exceeds 10 tokens. -/
theorem pruneTokens_length_le (l : List Token) (hnd : (l.map (·.id)).Nodup) :
    (pruneTokens l).length ≤ 10 := by
  have hsub : pruneTokens l ⊆ (l.mergeSort recentLe).take 10 := by
    intro t ht
    have h1 := (mem_pruneTokens_iff l hnd t).mp ht
    exact (mem_take_sorted_iff l hnd t).mpr h1
  have hndp : (pruneTokens l).Nodup := by
    have hl : l.Nodup := List.Nodup.of_map _ hnd
    exact List.Sublist.nodup (List.filter_sublist l) hl
  calc (pruneTokens l).length
      ≤ ((l.mergeSort recentLe).take 10).length :=
        (List.subperm_of_subset hndp hsub).length_le
    _ ≤ 10 := List.length_take_le 10 _

/-- Expiring other active tokens changes no `_id`. -/
theorem map_id_expireOthers (nid : Nat) (l : List Token) :
    (expireOthers nid l).map (·.id) = l.map (·.id) := by
  unfold expireOthers
  rw [List.map_map]
  apply List.map_congr_left
  intro a _
  dsimp [Function.comp]
  split <;> rfl

/-- Expiring other active tokens changes no token value. -/
theorem map_token_expireOthers (nid : Nat) (l : List Token) :
    (expireOthers nid l).map (·.token) = l.map (·.token) := by
  unfold expireOthers
  rw [List.map_map]
  apply List.map_congr_left
  intro a _
  dsimp [Function.comp]
  split <;> rfl

/-- Expiring other active tokens does not change recency counts. -/
theorem countP_moreRecent_expireOthers (nid : Nat) (l : List Token) (t : Token) :
    (expireOthers nid l).countP (fun u => moreRecent u t) =
      l.countP (fun u => moreRecent u t) := by
  unfold expireOthers
  rw [List.countP_map]
  apply List.countP_congr
  intro a _
  dsimp [Function.comp]
  split <;> rfl

/-- Marking naturally expired tokens changes no `_id`. -/
theorem map_id_markNaturallyExpired (now : Nat) (l : List Token) :
    (markNaturallyExpired now l).map (·.id) = l.map (·.id) := by
  unfold markNaturallyExpired
  rw [List.map_map]
  apply List.map_congr_left
  intro a _
  dsimp [Function.comp]
  split <;> rfl

/-- Claim C5: after `generateQRCode` or `cleanupExpiredQRs` the store holds
at most 10 tokens, and they are exactly the tokens of the pre-prune state
(insert plus rotation, respectively expiry marking) that have fewer than 10
strictly more recently created tokens — every older token is deleted,
status notwithstanding. -/
theorem retention_prune_spec (store : TokenStore) (now validitySeconds : Nat)
    (tokenValue : String) (createdBy : Option Nat)
    (hwf : WFStore store) :
    ((generateQRCode store now validitySeconds tokenValue createdBy).2.tokens.length ≤ 10 ∧
     (∀ t ∈ (generateQRCode store now validitySeconds tokenValue createdBy).2.tokens,
        t ∈ expireOthers store.nextId
          (store.tokens ++ [(generateQRCode store now validitySeconds tokenValue createdBy).1])) ∧
     (∀ t ∈ expireOthers store.nextId
          (store.tokens ++ [(generateQRCode store now validitySeconds tokenValue createdBy).1]),
        (t ∈ (generateQRCode store now validitySeconds tokenValue createdBy).2.tokens ↔
          (expireOthers store.nextId
            (store.tokens ++ [(generateQRCode store now validitySeconds tokenValue createdBy).1])).countP
            (fun u => moreRecent u t) < 10))) ∧
    ((cleanupExpiredQRs store now).tokens.length ≤ 10 ∧
     (∀ t ∈ (cleanupExpiredQRs store now).tokens,
        t ∈ markNaturallyExpired now store.tokens) ∧
     (∀ t ∈ markNaturallyExpired now store.tokens,
        (t ∈ (cleanupExpiredQRs store now).tokens ↔
          (markNaturallyExpired now store.tokens).countP
            (fun u => moreRecent u t) < 10))) := by
  obtain ⟨hndid, hlt, hndval⟩ := hwf
  have hndins : ((store.tokens ++
      [(generateQRCode store now validitySeconds tokenValue createdBy).1]).map (·.id)).Nodup := by
    rw [List.map_append, List.nodup_append]
    refine ⟨hndid, List.nodup_singleton _, ?_⟩
    intro a ha hb
    simp only [List.map_cons, List.map_nil, List.mem_cons, List.not_mem_nil,
      or_false] at hb
    obtain ⟨u, hu, rfl⟩ := List.mem_map.mp ha
    have hlt' := hlt u hu
    have hid : (generateQRCode store now validitySeconds tokenValue createdBy).1.id =
        store.nextId := rfl
    rw [hid] at hb
    omega
  have hndL : ((expireOthers store.nextId
      (store.tokens ++ [(generateQRCode store now validitySeconds tokenValue createdBy).1])).map
        (·.id)).Nodup := by
    rw [map_id_expireOthers]
    exact hndins
  have hgen : (generateQRCode store now validitySeconds tokenValue createdBy).2.tokens =
      pruneTokens (expireOthers store.nextId
        (store.tokens ++ [(generateQRCode store now validitySeconds tokenValue createdBy).1])) :=
    rfl
  have hndC : ((markNaturallyExpired now store.tokens).map (·.id)).Nodup := by
    rw [map_id_markNaturallyExpired]
    exact hndid
  have hclean : (cleanupExpiredQRs store now).tokens =
      pruneTokens (markNaturallyExpired now store.tokens) := rfl
  refine ⟨⟨?_, ?_, ?_⟩, ?_, ?_, ?_⟩
  · rw [hgen]
    exact pruneTokens_length_le _ hndL
  · intro t ht
    rw [hgen] at ht
    exact ((mem_pruneTokens_iff _ hndL t).mp ht).1
  · intro t ht
    rw [hgen]
    constructor
    · intro h1
      exact ((mem_pruneTokens_iff _ hndL t).mp h1).2
    · intro h1
      exact (mem_pruneTokens_iff _ hndL t).mpr ⟨ht, h1⟩
  · rw [hclean]
    exact pruneTokens_length_le _ hndC
  · intro t ht
    rw [hclean] at ht
    exact ((mem_pruneTokens_iff _ hndC t).mp ht).1
  · intro t ht
    rw [hclean]
    constructor
    · intro h1
      exact ((mem_pruneTokens_iff _ hndC t).mp h1).2
    · intro h1
      exact (mem_pruneTokens_iff _ hndC t).mpr ⟨ht, h1⟩

/-- Claim C5 witness: the retention bound instantiated on a concrete
single-token store. -/
theorem retention_prune_spec_witness :
    (generateQRCode { tokens := [demoTok], nextId := 1 } 6000 30 "c" none).2.tokens.length
      ≤ 10 ∧
    (cleanupExpiredQRs { tokens := [demoTok], nextId := 1 } 6000).tokens.length ≤ 10 :=
  ⟨(retention_prune_spec { tokens := [demoTok], nextId := 1 } 6000 30 "c" none
      (by decide)).1.1,
   (retention_prune_spec { tokens := [demoTok], nextId := 1 } 6000 30 "c" none
      (by decide)).2.1⟩

/-- Claim C1: after `generateQRCode` completes, at most one stored token is
`active`; and any token that was active beforehand (created no later than
`now` and recent enough to survive the retention prune, i.e. with at most 8
strictly more recent tokens) validates as Expired afterwards at every
instant — in particular at instants strictly before its original
`validTo`: rotation pre-empts natural expiry. -/
theorem rotation_single_active (store : TokenStore) (now validitySeconds : Nat)
    (tokenValue : String) (createdBy : Option Nat)
    (hwf : WFStore store)
    (hfresh : tokenValue ∉ store.tokens.map (·.token)) :
    ((generateQRCode store now validitySeconds tokenValue createdBy).2.tokens.countP
        (fun t => t.status == TokenStatus.active) ≤ 1) ∧
    (∀ A ∈ store.tokens, A.status = .active → A.createdAt ≤ now →
      store.tokens.countP (fun u => moreRecent u A) ≤ 8 →
      ∀ now2 : Nat,
        (validateQRToken
          (generateQRCode store now validitySeconds tokenValue createdBy).2.tokens
          A.token now2).1 = .expired) := by
  obtain ⟨hndid, hlt, hndval⟩ := hwf
  have hNid : (generateQRCode store now validitySeconds tokenValue createdBy).1.id =
      store.nextId := rfl
  have hNcreated : (generateQRCode store now validitySeconds tokenValue createdBy).1.createdAt =
      now := rfl
  have hNtok : (generateQRCode store now validitySeconds tokenValue createdBy).1.token =
      tokenValue := rfl
  have hgen : (generateQRCode store now validitySeconds tokenValue createdBy).2.tokens =
      pruneTokens (expireOthers store.nextId
        (store.tokens ++ [(generateQRCode store now validitySeconds tokenValue createdBy).1])) :=
    rfl
  have hndins : ((store.tokens ++
      [(generateQRCode store now validitySeconds tokenValue createdBy).1]).map (·.id)).Nodup := by
    rw [List.map_append, List.nodup_append]
    refine ⟨hndid, List.nodup_singleton _, ?_⟩
    intro a ha hb
    simp only [List.map_cons, List.map_nil, List.mem_cons, List.not_mem_nil,
      or_false] at hb
    obtain ⟨u, hu, rfl⟩ := List.mem_map.mp ha
    have hlt' := hlt u hu
    rw [hNid] at hb
    omega
  have hndL : ((expireOthers store.nextId
      (store.tokens ++ [(generateQRCode store now validitySeconds tokenValue createdBy).1])).map
        (·.id)).Nodup := by
    rw [map_id_expireOthers]
    exact hndins
  have hsub : (pruneTokens (expireOthers store.nextId
      (store.tokens ++ [(generateQRCode store now validitySeconds tokenValue createdBy).1]))).Sublist
      (expireOthers store.nextId
        (store.tokens ++ [(generateQRCode store now validitySeconds tokenValue createdBy).1])) := by
    unfold pruneTokens
    exact List.filter_sublist _
  constructor
  · -- at most one active token
    rw [hgen]
    have hactive_id : ∀ t ∈ pruneTokens (expireOthers store.nextId
        (store.tokens ++ [(generateQRCode store now validitySeconds tokenValue createdBy).1])),
        t.status = .active → t.id = store.nextId := by
      intro t ht hst
      have htL := ((mem_pruneTokens_iff _ hndL t).mp ht).1
      obtain ⟨a, ha, rfl⟩ := List.mem_map.mp htL
      rcases List.mem_append.mp ha with ha' | ha'
      · by_cases hcond : a.id ≠ store.nextId ∧ a.status = TokenStatus.active
        · rw [if_pos hcond] at hst
          cases hst
        · rw [if_neg hcond] at hst ⊢
          have hlt' := hlt a ha'
          exact absurd ⟨by omega, hst⟩ hcond
      · simp only [List.mem_cons, List.not_mem_nil, or_false] at ha'
        subst ha'
        have hcond : ¬ ((generateQRCode store now validitySeconds tokenValue createdBy).1.id ≠
            store.nextId ∧
            (generateQRCode store now validitySeconds tokenValue createdBy).1.status =
              TokenStatus.active) := by
          rw [hNid]
          simp
        rw [if_neg hcond]
        exact hNid
    calc (pruneTokens (expireOthers store.nextId
          (store.tokens ++ [(generateQRCode store now validitySeconds tokenValue createdBy).1]))).countP
          (fun t => t.status == TokenStatus.active)
        ≤ (pruneTokens (expireOthers store.nextId
          (store.tokens ++ [(generateQRCode store now validitySeconds tokenValue createdBy).1]))).countP
          (fun t => t.id == store.nextId) := by
          apply List.countP_mono_left
          intro a ha hp
          simp only [beq_iff_eq] at hp ⊢
          exact hactive_id a ha hp
      _ ≤ 1 := by
          have hndp : ((pruneTokens (expireOthers store.nextId
              (store.tokens ++
                [(generateQRCode store now validitySeconds tokenValue createdBy).1]))).map
              (·.id)).Nodup :=
            List.Sublist.nodup (List.Sublist.map _ hsub) hndL
          have hcnt := List.nodup_iff_count_le_one.mp hndp store.nextId
          rw [List.count_eq_countP, List.countP_map] at hcnt
          calc (pruneTokens (expireOthers store.nextId
                (store.tokens ++
                  [(generateQRCode store now validitySeconds tokenValue createdBy).1]))).countP
                (fun t => t.id == store.nextId)
              = (pruneTokens (expireOthers store.nextId
                (store.tokens ++
                  [(generateQRCode store now validitySeconds tokenValue createdBy).1]))).countP
                ((fun x => x == store.nextId) ∘ (fun t => t.id)) :=
                List.countP_congr (fun x _ => Iff.rfl)
            _ ≤ 1 := hcnt
  · -- an active token rotated out validates Expired at every instant
    intro A hA hstat hcreated hcount now2
    have hAlt := hlt A hA
    have hne : A.id ≠ store.nextId := by omega
    have hstep1 : ({ A with status := TokenStatus.expired } : Token) ∈
        expireOthers store.nextId
          (store.tokens ++ [(generateQRCode store now validitySeconds tokenValue createdBy).1]) := by
      apply List.mem_map.mpr
      refine ⟨A, List.mem_append.mpr (Or.inl hA), ?_⟩
      rw [if_pos ⟨hne, hstat⟩]
    have hmr : moreRecent (generateQRCode store now validitySeconds tokenValue createdBy).1
        ({ A with status := TokenStatus.expired } : Token) = true := by
      simp only [moreRecent, Bool.or_eq_true, Bool.and_eq_true, beq_iff_eq,
        decide_eq_true_eq]
      have e3 : ({ A with status := TokenStatus.expired } : Token).createdAt = A.createdAt :=
        rfl
      have e4 : ({ A with status := TokenStatus.expired } : Token).id = A.id := rfl
      rw [hNcreated, hNid, e3, e4]
      omega
    have hrank : (expireOthers store.nextId
        (store.tokens ++ [(generateQRCode store now validitySeconds tokenValue createdBy).1])).countP
          (fun u => moreRecent u ({ A with status := TokenStatus.expired } : Token)) < 10 := by
      rw [countP_moreRecent_expireOthers, List.countP_append]
      have h1 : store.tokens.countP
          (fun u => moreRecent u ({ A with status := TokenStatus.expired } : Token)) =
          store.tokens.countP (fun u => moreRecent u A) :=
        List.countP_congr (fun x _ => Iff.rfl)
      have h2 : ([(generateQRCode store now validitySeconds tokenValue createdBy).1]).countP
          (fun u => moreRecent u ({ A with status := TokenStatus.expired } : Token)) = 1 := by
        rw [List.countP_cons]
        simp [hmr]
      rw [h1, h2]
      omega
    have hstep3 : ({ A with status := TokenStatus.expired } : Token) ∈
        pruneTokens (expireOthers store.nextId
          (store.tokens ++ [(generateQRCode store now validitySeconds tokenValue createdBy).1])) :=
      (mem_pruneTokens_iff _ hndL _).mpr ⟨hstep1, hrank⟩
    have hvalsL : ((expireOthers store.nextId
        (store.tokens ++ [(generateQRCode store now validitySeconds tokenValue createdBy).1])).map
          (·.token)).Nodup := by
      rw [map_token_expireOthers, List.map_append, List.nodup_append]
      refine ⟨hndval, List.nodup_singleton _, ?_⟩
      intro x hx hx2
      simp only [List.map_cons, List.map_nil, List.mem_cons, List.not_mem_nil,
        or_false] at hx2
      rw [hNtok] at hx2
      subst hx2
      exact hfresh hx
    have hvalsp : ((pruneTokens (expireOthers store.nextId
        (store.tokens ++
          [(generateQRCode store now validitySeconds tokenValue createdBy).1]))).map
        (·.token)).Nodup :=
      List.Sublist.nodup (List.Sublist.map _ hsub) hvalsL
    have hfd : (pruneTokens (expireOthers store.nextId
        (store.tokens ++
          [(generateQRCode store now validitySeconds tokenValue createdBy).1]))).find?
        (fun t => t.token == A.token) = some ({ A with status := TokenStatus.expired } : Token) := by
      apply find_of_unique hstep3
      · have e5 : ({ A with status := TokenStatus.expired } : Token).token = A.token := rfl
        rw [e5]
        simp
      · intro b hb htb
        simp only [beq_iff_eq] at htb
        have e5 : ({ A with status := TokenStatus.expired } : Token).token = A.token := rfl
        exact List.inj_on_of_nodup_map hvalsp hb hstep3 (htb.trans e5.symm)
    have hnv : isValidTok ({ A with status := TokenStatus.expired } : Token) now2 = false := by
      unfold isValidTok
      have e6 : ({ A with status := TokenStatus.expired } : Token).status =
          TokenStatus.expired := rfl
      rw [e6]
      simp
    rw [hgen]
    simp only [validateQRToken, findToken, hfd, hnv, Bool.false_eq_true, if_false]

/-- Claim C1 witness: one active token "b" (valid until 31000), a new token
generated at 6000; afterwards at most one token is active and "b" validates
Expired already at instant 2000, well before its original validTo. -/
theorem rotation_single_active_witness :
    ((generateQRCode { tokens := [demoTok], nextId := 1 } 6000 30 "c" none).2.tokens.countP
        (fun t => t.status == TokenStatus.active) ≤ 1) ∧
    (validateQRToken
        (generateQRCode { tokens := [demoTok], nextId := 1 } 6000 30 "c" none).2.tokens
        "b" 2000).1 = .expired :=
  ⟨(rotation_single_active { tokens := [demoTok], nextId := 1 } 6000 30 "c" none
      (by decide) (by decide)).1,
   (rotation_single_active { tokens := [demoTok], nextId := 1 } 6000 30 "c" none
      (by decide) (by decide)).2 demoTok (by decide) (by decide) (by decide) (by decide) 2000⟩

end Brosted